import Mathlib

/-!
Shallow embedding of `src/UserManager.ts` from `rafaelcascalho/keycloak-middleware`,
together with theorems checking the specification's claims about the role
aggregation engine, the provisioning orchestrator, and the attribute
read/merge/write operations.

Conventions of the embedding:
* JavaScript `undefined` for an optional value is `Option.none`.
* A promise settlement (`Promise.allSettled` element) is a `Settled` value.
* A computation that can throw / reject is an `Except String` value.
* The pluggable HTTP transport and the token supplier are oracles passed in
  as function-valued parameters (they are external collaborators).
-/

namespace KeycloakUserManager

/-- Modelled from the spec: the `Attribute` interface of `src/interfaces.ts`
(that file is not in the source tree): a string `key` paired with an ordered
sequence of string values. -/
structure Attribute where
  key : String
  value : List String
deriving DecidableEq, Repr

/-- A JavaScript runtime value as far as this client can observe one: the
`data` payload of a transport response and its fields. -/
inductive Jsonish where
  | null
  | bool (b : Bool)
  | num (n : Int)
  | str (s : String)
  | arr (elems : List Jsonish)
  | obj (entries : List (String × Jsonish))

/-- One element of a `Promise.allSettled` result: fulfilled with a value or
rejected with a reason. -/
inductive Settled (α : Type) where
  | fulfilled (value : α)
  | rejected (reason : String)
deriving DecidableEq, Repr

/-- Settlement of an `Except`-style outcome, as `Promise.allSettled` records it. -/
def settle {α : Type} : Except String α → Settled α
  | .ok a => .fulfilled a
  | .error e => .rejected e

/-! ## The JavaScript `Map` used by `addAttributes`, as an association list

`addAttributes` (lines 62-70) folds the combined attribute list into a
`Map<string, string[]>` with `mappedAttributes.set(attribute.key, attribute.value)`.
`Map.set` replaces the value of an existing key in place (keeping its original
insertion position) and appends an unseen key at the end; `Object.fromEntries`
then turns the map into the object sent as the `attributes` field of the PUT
body, preserving exactly the map's entries (keys in a `Map` are unique).  The
map is represented by its entry list. -/

/-- `Map.set`: replace the value of the (unique) entry holding the key, else
append a new entry at the end. -/
def mapSet {α : Type} : List (String × α) → String → α → List (String × α)
  | [], k, v => [(k, v)]
  | kv :: rest, k, v => if kv.1 = k then (k, v) :: rest else kv :: mapSet rest k v

/-- `Map.get` / first entry holding the key. -/
def mapLookup {α : Type} : List (String × α) → String → Option α
  | [], _ => none
  | kv :: rest, k => if kv.1 = k then some kv.2 else mapLookup rest k

/-- The value paired with the last occurrence of a key in an entry list. -/
def lastVal {α : Type} : List (String × α) → String → Option α
  | [], _ => none
  | kv :: rest, k =>
    match lastVal rest k with
    | some v => some v
    | none => if kv.1 = k then some kv.2 else none

/-- Build the `Map` by `forEach`-setting every entry of the list in order,
exactly as `addAttributes` does on `combinedAttributes`. -/
def jsMap {α : Type} (entries : List (String × α)) : List (String × α) :=
  entries.foldl (fun acc kv => mapSet acc kv.1 kv.2) []

/-- Left-biased choice on options (the shape `lastVal` computations combine with). -/
def optOr {α : Type} : Option α → Option α → Option α
  | some a, _ => some a
  | none, b => b

/-- Keys of a `Map` entry list are pairwise distinct. -/
def distinctKeys {α : Type} (m : List (String × α)) : Prop :=
  m.Pairwise fun a b => a.1 ≠ b.1

/-- View an `Attribute` as a map entry. -/
def Attribute.toPair (a : Attribute) : String × List String := (a.key, a.value)

/-- The merged mapping `addAttributes` sends as the `attributes` field of its
PUT body, given the previously stored attributes (the result of its internal
`getAttributes` read) and the incoming attributes: concatenate
(`previousAttributes.concat(attributes)`) and fold into the `Map`. -/
def addAttributesBody (previousAttributes attributes : List Attribute) :
    List (String × List String) :=
  jsMap ((previousAttributes ++ attributes).map Attribute.toPair)

/-- Read the entries of a merged mapping back as an attribute list (the shape
a subsequent `getAttributes` read of the written record yields). -/
def attrsOfMap (m : List (String × List String)) : List Attribute :=
  m.map fun kv => { key := kv.1, value := kv.2 }

/-! ## Role aggregation (`roles`, `batchAndParseRolesPromises`, lines 28-43 and 97-105) -/

/-- A role-like record in a role-mappings response body; only `name` is ever
projected out. -/
structure Role where
  name : String
deriving DecidableEq, Repr

/-- The transport response of one role-mappings request: `data` is the list of
role records. -/
structure RolesResponse where
  data : List Role
deriving DecidableEq, Repr

/-- One authorization scope addressed by `roles`: a client scope or the realm
scope. -/
inductive Scope where
  | client (cid : String)
  | realm
deriving DecidableEq, Repr

/-- The requests stacked up by `stackUpGetClientRolesRequests`: one client-scope
request per entry of `clientsIds`, in order. -/
def stackUpGetClientRolesRequests (clientsIds : List String) : List Scope :=
  clientsIds.map Scope.client

/-- The full batch `roles` builds: all client scopes first, then the realm scope
if `includeRealmRoles` is set. -/
def requestedScopes (clientsIds : List String) (includeRealmRoles : Bool) : List Scope :=
  stackUpGetClientRolesRequests clientsIds ++ if includeRealmRoles then [Scope.realm] else []

/-- `filterFulfilledResults` returns `response.value` for a fulfilled settlement
(an object, always truthy) and `null` (falsy) for a rejected one, so
`Array.prototype.filter` keeps exactly the fulfilled settlements. -/
def filterFulfilledResults : Settled RolesResponse → Bool
  | .fulfilled _ => true
  | .rejected _ => false

/-- `listRolesNames`, the reducer flattening name lists by spreading. -/
def listRolesNames (list names : List String) : List String :=
  list ++ names

/-- The mapper `(response) => response.data.map((role) => role.name)` applied to
a `PromiseSettledResult`: such a value carries `status` and `value`/`reason`
fields but no `data` field, so `response.data` is `undefined` and calling
`.map` on it throws a TypeError. -/
def settledDataRoleNames (_response : Settled RolesResponse) : Except String (List String) :=
  .error "TypeError: undefined has no properties"

/-- The value `batchAndParseRolesPromises` resolves with: the raw list of
settlements, or a flat list of role names (the code's two ternary arms). -/
inductive RolesResult where
  | raw (results : List (Settled RolesResponse))
  | names (ns : List String)
deriving DecidableEq, Repr

/-- `batchAndParseRolesPromises` after `Promise.allSettled` has produced the
settlement list: filter the fulfilled settlements; if there is at least one,
return them as-is (`successes.length ? successes : ...`), otherwise map the
(empty) success list through the name extractor and reduce with
`listRolesNames` starting from `[]`. -/
def batchAndParseRolesPromises (batchResponses : List (Settled RolesResponse)) :
    Except String RolesResult :=
  let successes := batchResponses.filter filterFulfilledResults
  if successes.length ≠ 0 then
    .ok (.raw successes)
  else do
    let nameLists ← successes.mapM settledDataRoleNames
    .ok (.names (nameLists.foldl listRolesNames []))

/-- `roles` (the public operation, headers aside): build one pending request per
scope in `requestedScopes` order, let the transport settle each (the
`scopeOutcome` oracle), and aggregate with `batchAndParseRolesPromises`. -/
def roles (scopeOutcome : Scope → Settled RolesResponse) (clientsIds : List String)
    (includeRealmRoles : Bool) : Except String RolesResult :=
  batchAndParseRolesPromises ((requestedScopes clientsIds includeRealmRoles).map scopeOutcome)

/-! ## `getAttributes` (lines 75-94) -/

/-- A runtime attribute entry as `getAttributes` actually builds it: the pushed
`value` is whatever `Object.entries` produced (the `as string[]` annotation is
erased at runtime). -/
structure RawAttribute where
  key : String
  value : Jsonish

/-- `Object.entries(x)`: throws on `null`, yields the own enumerable entries
otherwise — none for booleans and numbers, index/character pairs for a string,
index/element pairs for an array, the key/value pairs for an object. -/
def jsEntries : Jsonish → Except String (List (String × Jsonish))
  | .null => .error "TypeError: can not convert null to object"
  | .bool _ => .ok []
  | .num _ => .ok []
  | .str s => .ok (s.toList.enum.map fun p => (toString p.1, Jsonish.str p.2.toString))
  | .arr elems => .ok (elems.enum.map fun p => (toString p.1, p.2))
  | .obj entries => .ok entries

/-- The field access `response?.data.attributes`: `none` for the whole chain
when the response is `undefined`; a throw when `data` is `null`; the field
value (or `undefined` when absent) when `data` is an object; `undefined` on
any other value. The argument is the `data` of the GET response, `none` when
the response itself was `undefined`. -/
def attributesField : Option Jsonish → Except String (Option Jsonish)
  | none => .ok none
  | some .null => .error "TypeError: can not read properties of null"
  | some (.obj entries) => .ok (mapLookup entries "attributes")
  | some _ => .ok none

/-- `Object.entries` applied to the (possibly `undefined`) attributes field:
`undefined` throws like `null` does. -/
def objectEntriesOf : Option Jsonish → Except String (List (String × Jsonish))
  | none => .error "TypeError: can not convert undefined to object"
  | some j => jsEntries j

/-- `getAttributes`, given the `data` of the GET response (`none` when the
response is `undefined`): inside the try block, read
`Object.entries(response?.data.attributes)` and push one `{key, value}` record
per entry; any throw is caught, logged, and the (still empty) accumulator is
returned. -/
def getAttributes (response : Option Jsonish) : List RawAttribute :=
  match attributesField response with
  | .error _ => []
  | .ok attrField =>
    match objectEntriesOf attrField with
    | .error _ => []
    | .ok entries => entries.map fun kv => { key := kv.1, value := kv.2 }

/-- A value of the shape `string[]`. -/
def isStringList : Jsonish → Bool
  | .arr elems => elems.all fun e => match e with | .str _ => true | _ => false
  | _ => false

/-- A parseable key-to-value-list mapping: an object each of whose fields holds
a `string[]`. -/
def isAttributeMapping : Jsonish → Bool
  | .obj entries => entries.all fun kv => isStringList kv.2
  | _ => false

/-! ## `create` and its follow-ups (lines 45-56 and 133-147) -/

/-- Modelled from the spec: the `User` interface of `src/interfaces.ts` (that
file is not in the source tree): profile fields (`username`, `email`, further
provider-defined fields) plus the write-only `password`. -/
structure User where
  username : String
  email : String
  password : String
deriving DecidableEq, Repr

/-- The rest-pattern `userData` of `const { password, ...userData } = user`:
every field of the user except `password`. -/
structure UserData where
  username : String
  email : String
deriving DecidableEq, Repr

/-- The destructuring `const { password, ...userData } = user`, `userData` part. -/
def User.toUserData (u : User) : UserData :=
  { username := u.username, email := u.email }

/-- Modelled from the spec: the `UpdateCredentialOptions` interface of
`src/interfaces.ts` (not in the source tree): an optional `temporary` flag. -/
structure UpdateCredentialOptions where
  temporary : Option Bool := none

/-- The body `savePassword` sends to the reset-password endpoint. -/
structure CredentialBody where
  type : String
  value : String
  temporary : Bool
deriving DecidableEq, Repr

/-- The body built by `savePassword`: `temporary` is the truthiness of
`options.temporary` (so `false` whenever the option is absent or `false`). -/
def savePasswordBody (credential : String) (options : UpdateCredentialOptions) :
    CredentialBody :=
  { type := "password"
    value := credential
    temporary := match options.temporary with | some true => true | _ => false }

/-- The creation POST response as `create` reads it: `headers.location`,
`none` when the header is absent. -/
structure CreateResponse where
  location : Option String
deriving DecidableEq, Repr

/-- The transport outcomes one `create` call can observe: the settlement of the
creation POST, of the reset-password PUT, and of the send-verify-email PUT. -/
structure CreateEnv where
  postResult : Except String CreateResponse
  resetPasswordResult : Except String Unit
  verifyEmailResult : Except String Unit

/-- What one `create` call did: the POST body it submitted, the user id it
extracted, the reset-password body it sent (when it got that far), whether the
verification email was requested, and the settlements of the two follow-ups. -/
structure CreateTrace where
  postBody : UserData
  userId : Option String
  resetBody : Option CredentialBody
  emailRequested : Bool
  followUps : List (Settled Unit)

/-- `create`: split off the password, POST the remaining profile fields, take
the last `/`-segment of `headers.location` as the new user id (a TypeError if
the header is absent), then `Promise.allSettled` over `savePassword` (with no
options) and `verifyEmail` — the settlement list is discarded, so the call
resolves regardless of either follow-up's failure. -/
def create (env : CreateEnv) (user : User) : CreateTrace × Except String Unit :=
  let userData := user.toUserData
  match env.postResult with
  | .error e =>
    ({ postBody := userData, userId := none, resetBody := none,
       emailRequested := false, followUps := [] }, .error e)
  | .ok response =>
    match response.location with
    | none =>
      ({ postBody := userData, userId := none, resetBody := none,
         emailRequested := false, followUps := [] },
       .error "TypeError: can not read properties of undefined")
    | some location =>
      let userId := (location.splitOn "/").getLastD ""
      let body := savePasswordBody user.password {}
      ({ postBody := userData, userId := some userId, resetBody := some body,
         emailRequested := true,
         followUps := [settle env.resetPasswordResult, settle env.verifyEmailResult] },
       .ok ())

/-! ## The header builder and the public operations (token accounting)

`mountHeaders` consults the token supplier (`this.token.get()`) exactly once
per call; the supplier is modelled as a stream of tokens indexed by how many
times it has been consulted so far. -/

/-- The token supplier together with how many times it has been consulted. -/
structure TokenState where
  supplier : Nat → String
  calls : Nat

/-- `this.token.get()`: yield the next token and advance the call counter. -/
def tokenGet (s : TokenState) : String × TokenState :=
  (s.supplier s.calls, { s with calls := s.calls + 1 })

/-- The single-entry header mapping `mountHeaders` builds. -/
structure AuthHeaders where
  authorization : String

/-- `mountHeaders`: one token supplier consultation, one `Bearer` header. -/
def mountHeaders (s : TokenState) : AuthHeaders × TokenState :=
  let t := tokenGet s
  ({ authorization := "Bearer " ++ t.1 }, t.2)

/-- The external collaborators one `UserManager` instance drives: the GET
response data per user id, the per-scope role-request settlements, and the
transport outcomes of a `create` call. -/
structure ClientEnv where
  userResponseData : String → Option Jsonish
  scopeOutcome : Scope → Settled RolesResponse
  createEnv : CreateEnv

/-- The public `details` operation: build headers, GET the record, return
`response?.data`. -/
def details (env : ClientEnv) (s : TokenState) (id : String) :
    Option Jsonish × TokenState :=
  let h := mountHeaders s
  (env.userResponseData id, h.2)

/-- The public `roles` operation: build headers once for the batch, then fan
out and aggregate. -/
def rolesOp (env : ClientEnv) (s : TokenState) (_id : String) (clientsIds : List String)
    (includeRealmRoles : Bool) : Except String RolesResult × TokenState :=
  let h := mountHeaders s
  (roles env.scopeOutcome clientsIds includeRealmRoles, h.2)

/-- The public `create` operation: build headers once, then run the
provisioning sequence (the follow-ups reuse the same headers value). -/
def createOp (env : ClientEnv) (s : TokenState) (user : User) :
    (CreateTrace × Except String Unit) × TokenState :=
  let h := mountHeaders s
  (create env.createEnv user, h.2)

/-- The public `getAttributes` operation: build headers, GET the record, parse
the attributes field. -/
def getAttributesOp (env : ClientEnv) (s : TokenState) (id : String) :
    List RawAttribute × TokenState :=
  let h := mountHeaders s
  (getAttributes (env.userResponseData id), h.2)

/-- A `string[]` attribute value as the runtime value it is. -/
def stringListJson (v : List String) : Jsonish :=
  .arr (v.map Jsonish.str)

/-- The public `addAttributes` operation: build headers, read the previous
attributes through `getAttributes` (which builds its own headers), concatenate
with the incoming attributes, fold into the `Map`, and PUT the resulting
mapping. Returns the `attributes` field of the PUT body. -/
def addAttributes (env : ClientEnv) (s : TokenState) (id : String)
    (attributes : List Attribute) : List (String × Jsonish) × TokenState :=
  let h := mountHeaders s
  let prev := getAttributesOp env h.2 id
  let combinedAttributes :=
    (prev.1.map fun a => (a.key, a.value))
      ++ attributes.map fun a => (a.key, stringListJson a.value)
  (jsMap combinedAttributes, prev.2)

/-- A concrete transport settlement assignment: the scope of client `clientA`
succeeds with one role named `read`, every other scope's request is rejected. -/
def clientScopeOutcomeExample : Scope → Settled RolesResponse
  | .client "clientA" => .fulfilled { data := [{ name := "read" }] }
  | .client _ => .rejected "client role lookup failed"
  | .realm => .rejected "realm role lookup failed"

/-! ## Lemmas about the `Map` model -/

theorem optOr_none_right {α : Type} (o : Option α) : optOr o none = o := by
  cases o <;> rfl

theorem mapLookup_mapSet {α : Type} (m : List (String × α)) (k j : String) (v : α) :
    mapLookup (mapSet m k v) j = if k = j then some v else mapLookup m j := by
  induction m with
  | nil => rfl
  | cons kv rest ih =>
    by_cases h1 : kv.1 = k
    · by_cases h2 : k = j <;> simp [mapSet, mapLookup, h1, h2]
    · by_cases h2 : kv.1 = j
      · have hkj : ¬ k = j := fun hh => h1 (h2.trans hh.symm)
        have hjk : ¬ j = k := fun hh => hkj hh.symm
        simp [mapSet, mapLookup, h1, h2, hkj, hjk]
      · simp [mapSet, mapLookup, h1, h2, ih]

theorem lastVal_append {α : Type} (xs ys : List (String × α)) (k : String) :
    lastVal (xs ++ ys) k = optOr (lastVal ys k) (lastVal xs k) := by
  induction xs with
  | nil => simp [lastVal, optOr_none_right]
  | cons a xs ih =>
    rw [List.cons_append, lastVal, ih, lastVal]
    cases hys : lastVal ys k <;> cases hxs : lastVal xs k <;> simp [optOr]

theorem mapLookup_foldl {α : Type} (entries : List (String × α)) (m : List (String × α))
    (k : String) :
    mapLookup (entries.foldl (fun acc kv => mapSet acc kv.1 kv.2) m) k
      = optOr (lastVal entries k) (mapLookup m k) := by
  induction entries generalizing m with
  | nil => simp [lastVal, optOr]
  | cons a rest ih =>
    rw [List.foldl_cons, ih, mapLookup_mapSet, lastVal]
    cases hl : lastVal rest k with
    | some v => simp [optOr]
    | none =>
      by_cases h : a.1 = k
      · simp [optOr, h]
      · have : ¬ k = a.1 := fun hh => h hh.symm
        simp [optOr, h, this]

theorem mapLookup_jsMap {α : Type} (entries : List (String × α)) (k : String) :
    mapLookup (jsMap entries) k = lastVal entries k := by
  rw [jsMap, mapLookup_foldl, mapLookup, optOr_none_right]

theorem lastVal_eq_none {α : Type} (entries : List (String × α)) (k : String)
    (h : ∀ kv ∈ entries, kv.1 ≠ k) : lastVal entries k = none := by
  induction entries with
  | nil => rfl
  | cons a rest ih =>
    rw [lastVal, ih fun kv hkv => h kv (List.mem_cons_of_mem a hkv)]
    simp [h a (List.mem_cons_self a rest)]

theorem lastVal_isSome {α : Type} (entries : List (String × α)) (k : String)
    (h : ∃ kv ∈ entries, kv.1 = k) : (lastVal entries k).isSome = true := by
  induction entries with
  | nil => simp at h
  | cons a rest ih =>
    rw [lastVal]
    rcases h with ⟨kv, hmem, hkey⟩
    rcases List.mem_cons.mp hmem with rfl | hmem
    · cases hl : lastVal rest k <;> simp [hkey]
    · have := ih ⟨kv, hmem, hkey⟩
      cases hl : lastVal rest k with
      | some v => simp
      | none => rw [hl] at this ; simp at this

theorem mem_mapSet {α : Type} (m : List (String × α)) (k : String) (v : α)
    (b : String × α) (hb : b ∈ mapSet m k v) : b.1 = k ∨ b ∈ m := by
  induction m with
  | nil =>
    simp [mapSet] at hb
    subst hb ; exact Or.inl rfl
  | cons kv rest ih =>
    by_cases h1 : kv.1 = k
    · rw [mapSet, if_pos h1] at hb
      rcases List.mem_cons.mp hb with rfl | hb
      · exact Or.inl rfl
      · exact Or.inr (List.mem_cons_of_mem kv hb)
    · rw [mapSet, if_neg h1] at hb
      rcases List.mem_cons.mp hb with rfl | hb
      · exact Or.inr (List.mem_cons_self b rest)
      · rcases ih hb with hk | hm
        · exact Or.inl hk
        · exact Or.inr (List.mem_cons_of_mem kv hm)

theorem mapSet_distinct {α : Type} (m : List (String × α)) (k : String) (v : α)
    (h : distinctKeys m) : distinctKeys (mapSet m k v) := by
  induction m with
  | nil => simp [mapSet, distinctKeys]
  | cons kv rest ih =>
    rcases List.pairwise_cons.mp h with ⟨hhead, htail⟩
    by_cases h1 : kv.1 = k
    · rw [mapSet, if_pos h1]
      exact List.pairwise_cons.mpr ⟨fun b hb => h1 ▸ hhead b hb, htail⟩
    · rw [mapSet, if_neg h1]
      refine List.pairwise_cons.mpr ⟨fun b hb => ?_, ih htail⟩
      rcases mem_mapSet rest k v b hb with hk | hm
      · rw [hk] ; exact h1
      · exact hhead b hm

theorem distinctKeys_foldl {α : Type} (entries : List (String × α)) (m : List (String × α))
    (h : distinctKeys m) :
    distinctKeys (entries.foldl (fun acc kv => mapSet acc kv.1 kv.2) m) := by
  induction entries generalizing m with
  | nil => exact h
  | cons a rest ih => exact ih _ (mapSet_distinct m a.1 a.2 h)

theorem distinctKeys_jsMap {α : Type} (entries : List (String × α)) :
    distinctKeys (jsMap entries) :=
  distinctKeys_foldl entries [] List.Pairwise.nil

theorem lastVal_of_distinct {α : Type} (m : List (String × α)) (k : String)
    (h : distinctKeys m) : lastVal m k = mapLookup m k := by
  induction m with
  | nil => rfl
  | cons kv rest ih =>
    rcases List.pairwise_cons.mp h with ⟨hhead, htail⟩
    rw [lastVal, mapLookup, ih htail]
    by_cases h1 : kv.1 = k
    · have hnone : mapLookup rest k = none := by
        rw [← ih htail]
        exact lastVal_eq_none rest k fun b hb => Ne.symm (h1 ▸ hhead b hb)
      simp [hnone, h1]
    · cases hl : mapLookup rest k <;> simp [h1]

theorem toPair_attrsOfMap (m : List (String × List String)) :
    (attrsOfMap m).map Attribute.toPair = m := by
  induction m with
  | nil => rfl
  | cons kv rest ih => simp [attrsOfMap, Attribute.toPair] at ih ⊢ ; exact ih

/-! ## Claim theorems -/

/-- Claim C1: evaluating `roles` at a batch with one fulfilled and one rejected
scope shows that the value returned is the raw list of fulfilled
`PromiseSettledResult` objects, not the concatenation of the `name` fields of
the successful response bodies that the claim describes: the ternary in
`batchAndParseRolesPromises` returns `successes` itself whenever it is
non-empty, and the name-projecting branch is unreachable. -/
theorem roles_success_returns_raw_settlements :
    roles clientScopeOutcomeExample ["clientA", "clientB"] false
        = Except.ok (RolesResult.raw [Settled.fulfilled { data := [{ name := "read" }] }]) ∧
      RolesResult.raw [Settled.fulfilled { data := [{ name := "read" }] }]
        ≠ RolesResult.names ["read"] :=
  ⟨rfl, fun h => RolesResult.noConfusion h⟩

/-- Claim C2: evaluating `roles` at a batch in which every scope request fails
(one client scope plus the realm scope) shows that the value returned is an
empty name list, not the list of the two failure outcomes that the claim
describes: with zero successes the code maps and reduces the empty success
list, producing `[]`. -/
theorem roles_all_failed_returns_empty :
    roles (fun s => Settled.rejected (match s with
          | .client cid => "client scope failed: " ++ cid
          | .realm => "realm scope failed")) ["clientA"] true
        = Except.ok (RolesResult.names []) ∧
      RolesResult.names ([] : List String)
        ≠ RolesResult.raw [Settled.rejected "client scope failed: clientA",
            Settled.rejected "realm scope failed"] :=
  ⟨rfl, fun h => RolesResult.noConfusion h⟩

/-- Claim C3: whenever the creation POST succeeds and the response carries a
`location` header, `create` resolves successfully, whatever the outcomes of
the reset-password and verify-email follow-ups — `Promise.allSettled` absorbs
both failures. -/
theorem create_tolerates_followup_failures (env : CreateEnv) (user : User)
    (resp : CreateResponse) (loc : String)
    (hpost : env.postResult = Except.ok resp) (hloc : resp.location = some loc) :
    (create env user).2 = Except.ok () := by
  simp [create, hpost, hloc]

/-- Witness for C3: a concrete `create` call whose two follow-up requests both
fail still resolves successfully. -/
theorem create_tolerates_followup_failures_witness :
    (create
        { postResult := Except.ok { location := some "a/b/users/abc" },
          resetPasswordResult := Except.error "credential service down",
          verifyEmailResult := Except.error "email service down" }
        { username := "u", email := "u@example.com", password := "pw" }).2
      = Except.ok () :=
  create_tolerates_followup_failures _ _ { location := some "a/b/users/abc" } "a/b/users/abc"
    rfl rfl

/-- Helper for C8: in every branch of `create`, the POST body is the user's
profile fields without the password. -/
theorem create_postBody_eq (env : CreateEnv) (user : User) :
    (create env user).1.postBody = user.toUserData := by
  cases hp : env.postResult with
  | error e => simp [create, hp]
  | ok response =>
    cases hl : response.location with
    | none => simp [create, hp, hl]
    | some loc => simp [create, hp, hl]

/-- Claim C8: the body submitted to the creation POST is exactly the user's
profile fields with the password removed, and it does not depend on the
password at all. -/
theorem create_post_body_omits_password (env : CreateEnv) (u : User) (p : String) :
    (create env u).1.postBody = u.toUserData ∧
    (create env { u with password := p }).1.postBody = (create env u).1.postBody := by
  refine ⟨create_postBody_eq env u, ?_⟩
  rw [create_postBody_eq, create_postBody_eq]
  rfl

/-- Claim C10: whenever `create` issues its reset-password follow-up, the body
carries `temporary = false`: `create` passes no credential options, so the
default `{}` makes the truthiness test on `options.temporary` fail. -/
theorem create_password_never_temporary (env : CreateEnv) (user : User) (b : CredentialBody)
    (h : (create env user).1.resetBody = some b) : b.temporary = false := by
  cases hp : env.postResult with
  | error e => simp [create, hp] at h
  | ok response =>
    cases hl : response.location with
    | none => simp [create, hp, hl] at h
    | some loc =>
      have hr : (create env user).1.resetBody = some (savePasswordBody user.password {}) := by
        simp [create, hp, hl]
      rw [hr] at h
      rw [← Option.some.inj h]
      rfl

/-- Witness for C10: a concrete successful `create` call sends a
reset-password body with `temporary = false`. -/
theorem create_password_never_temporary_witness :
    (CredentialBody.mk "password" "pw" false).temporary = false :=
  create_password_never_temporary
    { postResult := Except.ok { location := some "users/abc" },
      resetPasswordResult := Except.ok (), verifyEmailResult := Except.ok () }
    { username := "u", email := "u@example.com", password := "pw" }
    (CredentialBody.mk "password" "pw" false) rfl

/-- Claim C4: for a key present in both the existing and the incoming
attribute list, the merged mapping written back maps the key to the incoming
list's value for it — the value of its last occurrence in `incoming` — never
to any combination of existing and incoming values. -/
theorem addAttributes_incoming_value_wins (existing incoming : List Attribute) (k : String)
    (_hex : ∃ a ∈ existing, a.key = k) (hinc : ∃ a ∈ incoming, a.key = k) :
    mapLookup (addAttributesBody existing incoming) k
      = lastVal (incoming.map Attribute.toPair) k := by
  rw [addAttributesBody, List.map_append, mapLookup_jsMap, lastVal_append]
  have hsome : (lastVal (incoming.map Attribute.toPair) k).isSome = true :=
    lastVal_isSome _ k (by
      rcases hinc with ⟨a, ha, hk⟩
      exact ⟨a.toPair, List.mem_map_of_mem _ ha, hk⟩)
  cases hl : lastVal (incoming.map Attribute.toPair) k with
  | some v => rfl
  | none => rw [hl] at hsome ; simp at hsome

/-- Witness for C4: with key `dept` in both lists and repeated in the incoming
list, the merged mapping holds the incoming list's last value for `dept`. -/
theorem addAttributes_incoming_value_wins_witness :
    mapLookup (addAttributesBody [⟨"dept", ["old"]⟩] [⟨"dept", ["a"]⟩, ⟨"dept", ["b"]⟩]) "dept"
      = some ["b"] :=
  (addAttributes_incoming_value_wins [⟨"dept", ["old"]⟩] [⟨"dept", ["a"]⟩, ⟨"dept", ["b"]⟩]
      "dept" ⟨⟨"dept", ["old"]⟩, by decide⟩ ⟨⟨"dept", ["b"]⟩, by decide⟩).trans (by decide)

/-- Claim C5: a key occurring in the existing attributes but in none of the
incoming attributes is present in the full merged mapping sent in the PUT
body, with the same value the mapping of the existing attributes alone gives
it — the write-back drops no previously stored attribute. -/
theorem addAttributes_preserves_existing_keys (existing incoming : List Attribute) (k : String)
    (hex : ∃ a ∈ existing, a.key = k) (hinc : ∀ a ∈ incoming, a.key ≠ k) :
    mapLookup (addAttributesBody existing incoming) k
        = mapLookup (jsMap (existing.map Attribute.toPair)) k
      ∧ (mapLookup (addAttributesBody existing incoming) k).isSome = true := by
  have hnone : lastVal (incoming.map Attribute.toPair) k = none :=
    lastVal_eq_none _ k (by
      intro kv hkv
      rcases List.mem_map.mp hkv with ⟨a, ha, rfl⟩
      exact hinc a ha)
  have hmain : mapLookup (addAttributesBody existing incoming) k
      = lastVal (existing.map Attribute.toPair) k := by
    rw [addAttributesBody, List.map_append, mapLookup_jsMap, lastVal_append, hnone]
    rfl
  refine ⟨by rw [hmain, mapLookup_jsMap], ?_⟩
  rw [hmain]
  exact lastVal_isSome _ k (by
    rcases hex with ⟨a, ha, hk⟩
    exact ⟨a.toPair, List.mem_map_of_mem _ ha, hk⟩)

/-- Witness for C5: the key `dept`, untouched by the incoming list, keeps its
existing value in the merged mapping. -/
theorem addAttributes_preserves_existing_keys_witness :
    mapLookup (addAttributesBody [⟨"dept", ["x"]⟩] [⟨"team", ["y"]⟩]) "dept" = some ["x"] := by
  have h := addAttributes_preserves_existing_keys [⟨"dept", ["x"]⟩] [⟨"team", ["y"]⟩] "dept"
    ⟨⟨"dept", ["x"]⟩, by decide⟩ (by decide)
  exact h.1.trans (by decide)

/-- Claim C7: re-applying the same incoming attribute list to the already
merged mapping yields the same key-to-value-list mapping as applying it once:
the merge is idempotent in `incoming`. -/
theorem addAttributes_merge_idempotent (existing incoming : List Attribute) (k : String) :
    mapLookup (addAttributesBody (attrsOfMap (addAttributesBody existing incoming)) incoming) k
      = mapLookup (addAttributesBody existing incoming) k := by
  have hM : addAttributesBody existing incoming
      = jsMap (existing.map Attribute.toPair ++ incoming.map Attribute.toPair) := by
    rw [addAttributesBody, List.map_append]
  have hdk : distinctKeys (addAttributesBody existing incoming) := by
    rw [hM] ; exact distinctKeys_jsMap _
  have hMlast : lastVal (addAttributesBody existing incoming) k
      = mapLookup (addAttributesBody existing incoming) k :=
    lastVal_of_distinct _ k hdk
  have hMlook : mapLookup (addAttributesBody existing incoming) k
      = optOr (lastVal (incoming.map Attribute.toPair) k)
          (lastVal (existing.map Attribute.toPair) k) := by
    rw [hM, mapLookup_jsMap, lastVal_append]
  have hL : mapLookup
        (addAttributesBody (attrsOfMap (addAttributesBody existing incoming)) incoming) k
      = optOr (lastVal (incoming.map Attribute.toPair) k)
          (lastVal (addAttributesBody existing incoming) k) := by
    rw [addAttributesBody, List.map_append, toPair_attrsOfMap, mapLookup_jsMap, lastVal_append]
  rw [hL, hMlast, hMlook]
  cases lastVal (incoming.map Attribute.toPair) k with
  | some v => rfl
  | none => rfl

/-- Claim C6 counterexample: an attributes field holding `["x"]` — not a
parseable key-to-value-list mapping — makes `getAttributes` return a non-empty
list (the index-keyed own entries of the array), not the empty list the claim
requires. -/
theorem getAttributes_malformed_counterexample :
    isAttributeMapping (Jsonish.arr [Jsonish.str "x"]) = false ∧
    getAttributes (some (Jsonish.obj [("attributes", Jsonish.arr [Jsonish.str "x"])]))
      = [{ key := "0", value := Jsonish.str "x" }] ∧
    ({ key := "0", value := Jsonish.str "x" } : RawAttribute) :: [] ≠ ([] : List RawAttribute) :=
  ⟨rfl, rfl, fun h => List.noConfusion h⟩

/-- Claim C6 (amended): `getAttributes` returns the empty list — and raises no
error — whenever the attributes field is absent, `null`, or a primitive
non-string value, or the field access itself throws; only string- or
array-valued fields yield (junk) entries instead. -/
theorem getAttributes_lenient_empty (response : Option Jsonish)
    (h : attributesField response = Except.ok none ∨
         attributesField response = Except.ok (some Jsonish.null) ∨
         (∃ b, attributesField response = Except.ok (some (Jsonish.bool b))) ∨
         (∃ n, attributesField response = Except.ok (some (Jsonish.num n))) ∨
         (∃ e, attributesField response = Except.error e)) :
    getAttributes response = [] := by
  rcases h with h | h | ⟨b, h⟩ | ⟨n, h⟩ | ⟨e, h⟩ <;>
    simp [getAttributes, h, objectEntriesOf, jsEntries]

/-- Witness for C6 (amended): an absent response yields the empty attribute
list. -/
theorem getAttributes_lenient_empty_witness :
    getAttributes none = [] :=
  getAttributes_lenient_empty none (Or.inl rfl)

/-- Claim C9 counterexample: a concrete `addAttributes` call consults the
token supplier twice — once directly and once through its internal
`getAttributes` read — not exactly once as the claim states. -/
theorem addAttributes_two_token_calls :
    (addAttributes
        { userResponseData := fun _ => none,
          scopeOutcome := fun _ => Settled.rejected "unused",
          createEnv := { postResult := Except.error "unused",
                         resetPasswordResult := Except.ok (),
                         verifyEmailResult := Except.ok () } }
        { supplier := fun _ => "token", calls := 0 } "user1" []).2.calls = 2 ∧
      (2 : Nat) ≠ 1 :=
  ⟨rfl, by decide⟩

/-- Claim C9 (amended): `details`, `roles`, `create`, and `getAttributes` each
consult the token supplier exactly once per invocation, from any prior
supplier state (so nothing is cached across operations); `addAttributes`
consults it exactly twice, once directly and once via its internal
`getAttributes` read. -/
theorem token_supplier_calls_per_operation (env : ClientEnv) (s : TokenState) (id : String)
    (clientsIds : List String) (includeRealmRoles : Bool) (user : User)
    (attributes : List Attribute) :
    (details env s id).2.calls = s.calls + 1 ∧
    (rolesOp env s id clientsIds includeRealmRoles).2.calls = s.calls + 1 ∧
    (createOp env s user).2.calls = s.calls + 1 ∧
    (getAttributesOp env s id).2.calls = s.calls + 1 ∧
    (addAttributes env s id attributes).2.calls = s.calls + 2 :=
  ⟨rfl, rfl, rfl, rfl, rfl⟩

end KeycloakUserManager
